import Mathlib

/-!
Verification development for the sidetree-core-go document handler core.

Identifiers, byte buffers, property keys and commitments are modelled as
`List Char` (called `Str` below).  The external collaborators that the spec
places out of scope (the multihash/digest primitive, the JSON canonicalization
routine and the base64url/JSON decoding of a long-form initial state) are
passed in as function parameters, matching the spec's "interfaces only"
treatment.  The document handler, operation processor and document
transformers themselves are not present in the source tree (only their tests
and the `ResolutionResult` declaration are), so they are modelled from the
spec as indicated on each definition.
-/

/-- Strings/byte buffers of the Go code, embedded as lists of characters. -/
abbrev Str := List Char

/-- JSON-compatible values stored in a document (spec section 3: a document is
a mapping from string property names to arbitrary JSON-compatible values). -/
inductive Value where
  | str (s : Str)
  | bool (b : Bool)
  | arr (vs : List Value)
  | obj (fields : List (Str × Value))

/-- A document: ordered association container from property names to values
(spec section 9, design note on the dynamic map-typed document). -/
abbrev Document := List (Str × Value)

/-- Method/document metadata: a map from string keys to values
(`pkg/document/resolution.go`, type `Metadata map[string]interface{}`). -/
abbrev Metadata := List (Str × Value)

/-- Property key `id`. -/
def idKey : Str := ['i', 'd']

/-- Property key `@context`. -/
def contextKey : Str := ['@', 'c', 'o', 'n', 't', 'e', 'x', 't']

/-- Property key `published` (`PublishedProperty` in resolution.go). -/
def publishedKey : Str := ['p', 'u', 'b', 'l', 'i', 's', 'h', 'e', 'd']

/-- Property key `updateCommitment` (`UpdateCommitmentProperty`). -/
def updateCommitmentKey : Str :=
  ['u', 'p', 'd', 'a', 't', 'e', 'C', 'o', 'm', 'm', 'i', 't', 'm', 'e', 'n', 't']

/-- Property key `recoveryCommitment` (`RecoveryCommitmentProperty`). -/
def recoveryCommitmentKey : Str :=
  ['r', 'e', 'c', 'o', 'v', 'e', 'r', 'y', 'C', 'o', 'm', 'm', 'i', 't', 'm', 'e', 'n', 't']

/-- Property key `canonicalId` (`CanonicalIDProperty`). -/
def canonicalIdKey : Str := ['c', 'a', 'n', 'o', 'n', 'i', 'c', 'a', 'l', 'I', 'd']

/-- Property key `publicKey`. -/
def publicKeysKey : Str := ['p', 'u', 'b', 'l', 'i', 'c', 'K', 'e', 'y']

/-- Property key `service`. -/
def serviceKey : Str := ['s', 'e', 'r', 'v', 'i', 'c', 'e']

/-- Property key `@base` (added as an extra context entry by the DID
transformer when configured with `WithBase(true)`). -/
def baseKey : Str := ['@', 'b', 'a', 's', 'e']

/-- Error taxonomy of the handler and transformers (spec section 7), with the
message text observed by the tests attached via `Err.message`. -/
inductive Err where
  | mustStartWithNamespace
  | didSuffixEmpty
  | notFound
  | badRequestSize
  | badRequestInvalid
  | didMismatch
  | invalidCreate
  | internalDocNil
  | resolutionModelRequired
  | transformationInfoRequired
  | idRequired
  | publishedRequired
  | other (msg : String)
deriving DecidableEq

/-- The message text carried by each error, as asserted by the tests in
`src/unnamed/part_000` and the didtransformer tests. -/
def Err.message : Err → String
  | .mustStartWithNamespace => "did must start with configured namespace"
  | .didSuffixEmpty => "did suffix is empty"
  | .notFound => "not found"
  | .badRequestSize =>
      "bad request: operation byte size exceeds protocol max operation byte size"
  | .badRequestInvalid => "bad request: invalid character"
  | .didMismatch => "provided did doesn't match did created from initial state"
  | .invalidCreate => "bad request: invalid create operation"
  | .internalDocNil => "internal document is nil"
  | .resolutionModelRequired =>
      "resolution model is required for document transformation"
  | .transformationInfoRequired =>
      "transformation info is required for document transformation"
  | .idRequired => "id is required for document transformation"
  | .publishedRequired => "published is required for document transformation"
  | .other m => m

/-- Operation types (spec section 3, the four operation variants). -/
inductive OpType where
  | create
  | update
  | recover
  | deactivate
deriving DecidableEq

/-- A typed patch (spec section 3 and 4.2).  The JSON-patch kind is exercised
by no claim and is omitted; the remaining kinds follow spec 4.2. -/
inductive Patch where
  | addPublicKeys (keys : List Value)
  | removePublicKeys (ids : List Str)
  | addServices (services : List Value)
  | removeServices (ids : List Str)
  | replace (doc : Document)

/-- A delta: ordered patches plus the commitment for the next update
operation (spec section 3). -/
structure Delta where
  patches : List Patch
  updateCommitment : Str

/-- Create suffix data: the initial recovery commitment and a hash of the
initial delta (spec section 3). -/
structure SuffixData where
  deltaHash : Str
  recoveryCommitment : Str

/-- The canonical `{delta, suffixData}` pair embedded in a long-form
identifier (`model.CreateRequestJCS` in the tests). -/
structure CreateRequest where
  delta : Delta
  suffixData : SuffixData

/-- The external cryptographic collaborators (spec sections 1 and 6): the
multihash/digest primitive and the canonical (deterministic) serialization of
deltas and suffix data.  They are parameters of the model, pure by type. -/
structure Crypto where
  hash : Str → Str
  canonDelta : Delta → Str
  canonSuffixData : SuffixData → Str

/-- Modelled from the spec: `docutil.CalculateUniqueSuffix` (not under src/;
only its callers in the tests are).  Spec 4.3: the unique suffix is the
canonical hash of the suffix-data bytes. -/
def calculateUniqueSuffix (c : Crypto) (sd : SuffixData) : Str :=
  c.hash (c.canonSuffixData sd)

/-- The `id` property of a key/service entry, when the entry is an object
with a string `id` field. -/
def entryId : Value → Option Str
  | .obj fields =>
      match fields.lookup idKey with
      | some (.str s) => some s
      | _ => none
  | _ => none

/-- Two entries collide when both carry the same `id`. -/
def sameId (a b : Value) : Bool :=
  match entryId a, entryId b with
  | some x, some y => x == y
  | _, _ => false

/-- Modelled from the spec: upsert of key/service entries (spec 4.2,
`AddPublicKeys`/`AddServices`: appended if absent, replaced in place if
present); the patch engine source is not under src/. -/
def upsertEntries (existing news : List Value) : List Value :=
  (existing.map fun e =>
    match news.find? (fun n => sameId n e) with
    | some n => n
    | none => e) ++
  news.filter (fun n => ! existing.any (fun e => sameId e n))

/-- The array stored under key `k`, or the empty array. -/
def getArr (doc : Document) (k : Str) : List Value :=
  match doc.lookup k with
  | some (.arr vs) => vs
  | _ => []

/-- Replace the value at key `k` in place, or append the binding. -/
def setKey (doc : Document) (k : Str) (v : Value) : Document :=
  if doc.any (fun kv => kv.1 == k) then
    doc.map (fun kv => if kv.1 == k then (k, v) else kv)
  else doc ++ [(k, v)]

/-- Remove entries whose id is listed (spec 4.2: removing a non-existent id
is a no-op). -/
def removeById (entries : List Value) (ids : List Str) : List Value :=
  entries.filter fun e =>
    match entryId e with
    | some i => ! ids.contains i
    | none => true

/-- Modelled from the spec: the patch engine `Apply` (spec 4.2); its source
is not under src/. -/
def applyPatch (doc : Document) (p : Patch) : Document :=
  match p with
  | .addPublicKeys keys =>
      setKey doc publicKeysKey (.arr (upsertEntries (getArr doc publicKeysKey) keys))
  | .removePublicKeys ids =>
      setKey doc publicKeysKey (.arr (removeById (getArr doc publicKeysKey) ids))
  | .addServices svcs =>
      setKey doc serviceKey (.arr (upsertEntries (getArr doc serviceKey) svcs))
  | .removeServices ids =>
      setKey doc serviceKey (.arr (removeById (getArr doc serviceKey) ids))
  | .replace d => d

/-- Patches apply in the order listed within a delta (spec section 3). -/
def applyPatches (doc : Document) (ps : List Patch) : Document :=
  ps.foldl applyPatch doc

/-- The transient resolution accumulator (spec section 3, ResolutionModel). -/
structure ResolutionModel where
  doc : Document
  updateCommitment : Str
  recoveryCommitment : Str
  published : Bool
  deactivated : Bool

/-- Modelled from the spec: applying a Create operation (spec 4.4, row
`none / Create`): guard is that the hash of the canonical delta matches the
suffix data's delta hash; the document is the patches applied to the empty
document and the commitments come from the delta and suffix data.  The
operation applier source is not under src/. -/
def applyCreateModel (c : Crypto) (delta : Delta) (sd : SuffixData) :
    Except Err ResolutionModel :=
  if c.hash (c.canonDelta delta) = sd.deltaHash then
    .ok { doc := applyPatches [] delta.patches,
          updateCommitment := delta.updateCommitment,
          recoveryCommitment := sd.recoveryCommitment,
          published := false,
          deactivated := false }
  else .error .invalidCreate

/-- An operation together with its anchoring metadata (spec section 3,
AnchoredOperation; mirrors `batchapi.AnchoredOperation` plus the reveal value
carried by update/recover/deactivate operations). -/
structure AnchoredOperation where
  opType : OpType
  uniqueSuffix : Str
  delta : Delta
  suffixData : SuffixData
  revealValue : Str
  transactionTime : Nat
  transactionNumber : Nat

/-- Canonical total order on anchored operations: by (anchor time,
transaction number) ascending (spec 4.5 step 1). -/
def anchorLe (a b : AnchoredOperation) : Bool :=
  decide (a.transactionTime < b.transactionTime) ||
    (a.transactionTime == b.transactionTime &&
      decide (a.transactionNumber ≤ b.transactionNumber))

/-- Insertion into a sorted list of anchored operations. -/
def insertSorted (a : AnchoredOperation) :
    List AnchoredOperation → List AnchoredOperation
  | [] => [a]
  | b :: rest => if anchorLe a b then a :: b :: rest else b :: insertSorted a rest

/-- Insertion sort by (anchor time, transaction number); the store does not
guarantee order (spec 4.5). -/
def sortOps : List AnchoredOperation → List AnchoredOperation
  | [] => []
  | a :: rest => insertSorted a (sortOps rest)

/-- Modelled from the spec: one step of the operation applier state machine
(spec 4.4).  A guard failure rejects only the offending operation: the state
is returned unchanged (spec 4.5 step 4).  The applier source is not under
src/. -/
def applyAnchored (c : Crypto) (rm : ResolutionModel) (op : AnchoredOperation) :
    ResolutionModel :=
  if rm.deactivated then rm
  else
    match op.opType with
    | .create => rm
    | .update =>
        if c.hash op.revealValue = rm.updateCommitment then
          { rm with doc := applyPatches rm.doc op.delta.patches,
                    updateCommitment := op.delta.updateCommitment }
        else rm
    | .recover =>
        if c.hash op.revealValue = rm.recoveryCommitment then
          { rm with doc := applyPatches [] op.delta.patches,
                    updateCommitment := op.delta.updateCommitment,
                    recoveryCommitment := op.suffixData.recoveryCommitment }
        else rm
    | .deactivate =>
        if c.hash op.revealValue = rm.recoveryCommitment then
          { rm with doc := [], deactivated := true }
        else rm

/-- The first Create in the ordered candidates that the applier accepts, if
any (spec 4.5 steps 2 and 3). -/
def findValidCreate (c : Crypto) :
    List AnchoredOperation → Option ResolutionModel
  | [] => none
  | op :: rest =>
      if op.opType = .create then
        match applyCreateModel c op.delta op.suffixData with
        | .ok rm => some rm
        | .error _ => findValidCreate c rest
      else findValidCreate c rest

/-- Modelled from the spec: the operation processor's resolution algorithm
(spec 4.5) — sort the stored operations for the suffix, require a valid
Create (else `NotFoundError`), then replay the remaining candidates through
the applier, skipping any whose guard fails.  A resolved identifier is
published (spec section 3).  The processor source is not under src/. -/
def processorResolve (c : Crypto) (store : List AnchoredOperation) (us : Str) :
    Except Err ResolutionModel :=
  let ops := sortOps (store.filter (fun op => op.uniqueSuffix == us))
  match findValidCreate c ops with
  | none => .error .notFound
  | some rm0 =>
      .ok ((ops.filter (fun op => op.opType != OpType.create)).foldl
        (applyAnchored c) { rm0 with published := true })

/-- External resolution result (`pkg/document/resolution.go`,
`ResolutionResult`). -/
structure ResolutionResult where
  document : Document
  methodMetadata : Metadata
  documentMetadata : Metadata

/-- The protocol parameter bundle; only the size limit is exercised by the
claims (spec section 3, ProtocolVersion). -/
structure Protocol where
  maxOperationSize : Nat

/-- The protocol version registry as seen by the handler: either the active
protocol version or a `ProtocolError` (spec 4.8 and section 7). -/
abbrev ProtocolClient := Except Err Protocol

/-- The namespace delimiter `:` (`docutil.NamespaceDelimiter`). -/
def delim : Char := ':'

/-- The document handler configuration: canonical namespace plus alias
namespaces (spec 4.9 and `New` in the tests). -/
structure DocumentHandler where
  nspace : Str
  aliases : List Str

/-- Does `s` start with the pattern `p`?  (strings.HasPrefix). -/
def hasPfx (s p : Str) : Bool :=
  match p, s with
  | [], _ => true
  | _ :: _, [] => false
  | q :: qs, c :: cs => c == q && hasPfx cs qs

/-- Modelled from the spec: `getSuffix` of the document handler (its test is
`TestGetUniquePortion` in src/unnamed/part_000; the handler source is not
under src/).  Strips the namespace plus delimiter; fails when the id does not
start with the namespace or when the remaining suffix is empty. -/
def getSuffix (ns id : Str) : Except Err Str :=
  if hasPfx id (ns ++ [delim]) then
    if id.drop (ns.length + 1) = [] then .error .didSuffixEmpty
    else .ok (id.drop (ns.length + 1))
  else .error .mustStartWithNamespace

/-- Modelled from the spec: namespace/alias selection of the document handler
(spec 4.9: "strips configured namespace/alias prefix"; source not under
src/).  The canonical namespace is checked first, then the aliases. -/
def getNamespace (h : DocumentHandler) (id : Str) : Except Err Str :=
  if hasPfx id (h.nspace ++ [delim]) then .ok h.nspace
  else
    match h.aliases.find? (fun a => hasPfx id (a ++ [delim])) with
    | some a => .ok a
    | none => .error .mustStartWithNamespace

/-- Split at the first occurrence of `ch`, returning the parts before and
after it. -/
def splitFirst (ch : Char) : Str → Option (Str × Str)
  | [] => none
  | c :: rest =>
      if c = ch then some ([], rest)
      else
        match splitFirst ch rest with
        | none => none
        | some (a, b) => some (c :: a, b)

/-- Modelled from the spec: the handler's `transformToExternalDoc` (spec 4.9:
external result is the document plus method metadata with the published flag,
the current update/recovery commitments and the canonical id if an alias was
used; source not under src/, its test is `TestTransformToExternalDocument`).
The external document's `id` is the display identifier passed in. -/
def transformToExternalDoc (doc : Option Document) (displayId : Str)
    (uc rc : Str) (published : Bool) (canonicalId : Option Str) :
    Except Err ResolutionResult :=
  match doc with
  | none => .error .internalDocNil
  | some d =>
      .ok { document := (idKey, .str displayId) :: d,
            methodMetadata :=
              [(publishedKey, .bool published),
               (updateCommitmentKey, .str uc),
               (recoveryCommitmentKey, .str rc)] ++
              (match canonicalId with
               | some cid => [(canonicalIdKey, .str cid)]
               | none => []),
            documentMetadata := [] }

/-- Modelled from the spec: short-form resolution (spec 4.9 form (a)): look
up anchored operations via the processor, then produce the external result;
the canonical id is attached when the request used an alias namespace. -/
def resolveShortForm (h : DocumentHandler) (c : Crypto)
    (store : List AnchoredOperation) (ns us displayId : Str) :
    Except Err ResolutionResult :=
  match processorResolve c store us with
  | .error e => .error e
  | .ok rm =>
      transformToExternalDoc (some rm.doc) displayId rm.updateCommitment
        rm.recoveryCommitment rm.published
        (if ns = h.nspace then none else some (h.nspace ++ delim :: us))

/-- Modelled from the spec: long-form fallback resolution (spec 4.9 form (b)
and the tests in `TestDocumentHandler_ResolveDocument_InitialValue`): checks
the operation size against the protocol maximum, decodes the embedded initial
state, verifies that the suffix derived from it matches the requested suffix,
then resolves entirely in-memory with published = false.  `decode` is the
external base64url/JSON decoding collaborator. -/
def resolveWithInitialState (h : DocumentHandler) (pv : Protocol) (c : Crypto)
    (decode : Str → Option CreateRequest) (ns us encoded : Str) :
    Except Err ResolutionResult :=
  if encoded.length > pv.maxOperationSize then .error .badRequestSize
  else
    match decode encoded with
    | none => .error .badRequestInvalid
    | some req =>
        if calculateUniqueSuffix c req.suffixData = us then
          match applyCreateModel c req.delta req.suffixData with
          | .error e => .error e
          | .ok rm =>
              transformToExternalDoc (some rm.doc) (ns ++ delim :: us)
                rm.updateCommitment rm.recoveryCommitment false
                (if ns = h.nspace then none else some (h.nspace ++ delim :: us))
        else .error .didMismatch

/-- Modelled from the spec: `ResolveDocument` of the document handler (spec
4.9; source not under src/, its tests are in src/unnamed/part_000).  Strips
the configured namespace or alias, consults the protocol version registry,
then resolves the short form from the store; a long-form identifier is first
looked up in the store and the embedded initial state is used only when the
identifier is not found there. -/
def ResolveDocument (h : DocumentHandler) (pc : ProtocolClient) (c : Crypto)
    (decode : Str → Option CreateRequest) (store : List AnchoredOperation)
    (id : Str) : Except Err ResolutionResult :=
  match getNamespace h id with
  | .error e => .error e
  | .ok ns =>
      match pc with
      | .error e => .error e
      | .ok pv =>
          match getSuffix ns id with
          | .error e => .error e
          | .ok suffixPart =>
              match splitFirst delim suffixPart with
              | none => resolveShortForm h c store ns suffixPart id
              | some (us, encoded) =>
                  match resolveShortForm h c store ns us (ns ++ delim :: us) with
                  | .ok r => .ok r
                  | .error e =>
                      if e = Err.notFound then
                        resolveWithInitialState h pv c decode ns us encoded
                      else .error e

/-- A pending (not yet anchored) operation as submitted to the handler
(`batchapi.Operation` as constructed in the tests). -/
structure Operation where
  opType : OpType
  uniqueSuffix : Str
  id : Str
  operationBuffer : Str
  delta : Delta
  suffixData : SuffixData

/-- Modelled from the spec: `ProcessOperation` of the document handler (spec
4.9; source not under src/).  Consults the protocol version registry,
validates the operation byte size against `MaxOperationSize`, enqueues the
operation, and returns the externally-visible document only for a Create
(early, optimistic, unanchored; published = false). -/
def ProcessOperation (h : DocumentHandler) (pc : ProtocolClient) (c : Crypto)
    (queue : List Operation) (op : Operation) (anchorTimeHint : Nat) :
    Except Err (Option ResolutionResult × List Operation) :=
  match pc with
  | .error e => .error e
  | .ok pv =>
      if op.operationBuffer.length > pv.maxOperationSize then
        .error .badRequestSize
      else
        match op.opType with
        | .create =>
            match applyCreateModel c op.delta op.suffixData with
            | .error e => .error e
            | .ok rm =>
                match transformToExternalDoc (some rm.doc) op.id
                    rm.updateCommitment rm.recoveryCommitment false none with
                | .error e => .error e
                | .ok r => .ok (some r, queue ++ [op])
        | _ => .ok (none, queue ++ [op])

/-- The standard DID context, the first `@context` entry produced by the DID
document transformer (`didContext` in the didtransformer tests). -/
def didContext : Str :=
  ['h', 't', 't', 'p', 's', ':', '/', '/', 'w', 'w', 'w', '.', 'w', '3',
   '.', 'o', 'r', 'g', '/', 'n', 's', '/', 'd', 'i', 'd', '/', 'v', '1']

/-- The DID document transformer configuration
(`pkg/versions/0_1/doctransformer/didtransformer`, options `WithMethodContext`
and `WithBase` per `TestNewTransformer`). -/
structure Transformer where
  methodCtx : List Str
  includeBase : Bool

/-- Transformation info passed to the transformer: a map from property names
to values (`protocol.TransformationInfo`). -/
abbrev TransformationInfo := List (Str × Value)

/-- The internal document entries carried over into the external document;
the per-method shaping of keys and services is external policy (spec section
1, out of scope), so entries other than the reserved `@context`/`id` are kept
as they are. -/
def transformProperties (doc : Document) : Document :=
  doc.filter fun kv => ! (kv.1 == contextKey) && ! (kv.1 == idKey)

/-- Modelled from the spec: `TransformDocument` of the DID document
transformer (its source is not under src/; only
`didtransformer/transformer_test.go` is).  Rejects a missing resolution
model, missing transformation info, and info lacking the `id` or `published`
entries; otherwise produces the external document whose `@context` starts
with the standard DID context followed by the configured method contexts (and
an `@base` entry when so configured), with method metadata carrying the
published flag and both commitments, and document metadata carrying the
canonical id when supplied. -/
def TransformDocument (t : Transformer) (internal : Option ResolutionModel)
    (info : Option TransformationInfo) : Except Err ResolutionResult :=
  match internal with
  | none => .error .resolutionModelRequired
  | some rm =>
      match info with
      | none => .error .transformationInfoRequired
      | some inf =>
          match inf.lookup idKey with
          | none => .error .idRequired
          | some idVal =>
              match inf.lookup publishedKey with
              | none => .error .publishedRequired
              | some pubVal =>
                  .ok { document :=
                          (contextKey,
                            .arr ((.str didContext) ::
                              (t.methodCtx.map .str ++
                                (if t.includeBase then
                                  [Value.obj [(baseKey, idVal)]]
                                 else [])))) ::
                          (idKey, idVal) :: transformProperties rm.doc,
                        methodMetadata :=
                          [(publishedKey, pubVal),
                           (recoveryCommitmentKey, .str rm.recoveryCommitment),
                           (updateCommitmentKey, .str rm.updateCommitment)],
                        documentMetadata :=
                          match inf.lookup canonicalIdKey with
                          | some cv => [(canonicalIdKey, cv)]
                          | none => [] }

/-- Did a handler call succeed?  Used to state concrete facts about calls the
spec expects to fail. -/
def isOkResult : Except Err ResolutionResult → Bool
  | .ok _ => true
  | .error _ => false

/-- Number of entries of the `@context` array of a successful result, if
any. -/
def contextLength (x : Except Err ResolutionResult) : Option Nat :=
  match x with
  | .ok r =>
      match r.document.lookup contextKey with
      | some (.arr l) => some l.length
      | _ => none
  | .error _ => none

/-- The `id` property of the document of a successful result, if any. -/
def resultDocId (x : Except Err ResolutionResult) : Option Value :=
  match x with
  | .ok r => r.document.lookup idKey
  | .error _ => none

theorem hasPfx_append_self (p r : Str) : hasPfx (p ++ r) p = true := by
  induction p with
  | nil => simp [hasPfx]
  | cons c cs ih => simp [hasPfx, ih]

theorem getSuffix_append (ns rest : Str) :
    getSuffix ns (ns ++ delim :: rest) =
      if rest = [] then .error .didSuffixEmpty else .ok rest := by
  have h1 : ns ++ delim :: rest = (ns ++ [delim]) ++ rest := by simp
  have h2 : ((ns ++ [delim]) ++ rest).drop (ns.length + 1) = rest := by
    simp
  unfold getSuffix
  rw [h1, hasPfx_append_self, h2]
  simp

theorem getNamespace_append (h : DocumentHandler) (rest : Str) :
    getNamespace h (h.nspace ++ delim :: rest) = .ok h.nspace := by
  have h1 : h.nspace ++ delim :: rest = (h.nspace ++ [delim]) ++ rest := by simp
  unfold getNamespace
  rw [h1, hasPfx_append_self]
  simp

theorem splitFirst_of_not_mem (ch : Char) (l : Str) (h : ch ∉ l) :
    splitFirst ch l = none := by
  induction l with
  | nil => rfl
  | cons c rest ih =>
      have hc : ¬ c = ch := fun e => h (e ▸ List.mem_cons_self c rest)
      have hr : ch ∉ rest := fun m => h (List.mem_cons_of_mem _ m)
      simp [splitFirst, hc, ih hr]

theorem splitFirst_append (ch : Char) (a b : Str) (h : ch ∉ a) :
    splitFirst ch (a ++ ch :: b) = some (a, b) := by
  induction a with
  | nil => simp [splitFirst]
  | cons c rest ih =>
      have hc : ¬ c = ch := fun e => h (e ▸ List.mem_cons_self c rest)
      have hr : ch ∉ rest := fun m => h (List.mem_cons_of_mem _ m)
      simp [splitFirst, hc, ih hr]

theorem processorResolve_nil (c : Crypto) (us : Str) :
    processorResolve c [] us = .error .notFound := rfl

theorem mem_insertSorted (a x : AnchoredOperation) (l : List AnchoredOperation) :
    x ∈ insertSorted a l ↔ x = a ∨ x ∈ l := by
  induction l with
  | nil => simp [insertSorted]
  | cons b rest ih =>
      simp only [insertSorted]
      split
      · simp [List.mem_cons]
      · simp only [List.mem_cons, ih]
        tauto

theorem mem_sortOps (x : AnchoredOperation) (l : List AnchoredOperation) :
    x ∈ sortOps l ↔ x ∈ l := by
  induction l with
  | nil => simp [sortOps]
  | cons a rest ih => simp [sortOps, mem_insertSorted, ih]

theorem findValidCreate_eq_none (c : Crypto) (l : List AnchoredOperation)
    (h : ∀ op ∈ l, op.opType ≠ OpType.create) :
    findValidCreate c l = none := by
  induction l with
  | nil => rfl
  | cons op rest ih =>
      have h1 : ¬ op.opType = OpType.create := h op (List.mem_cons_self op rest)
      simp [findValidCreate, h1, ih fun o ho => h o (List.mem_cons_of_mem _ ho)]

theorem findValidCreate_isSome (c : Crypto) (l : List AnchoredOperation)
    (h : ∃ op ∈ l, op.opType = OpType.create ∧
      ∃ rm, applyCreateModel c op.delta op.suffixData = .ok rm) :
    ∃ rm0, findValidCreate c l = some rm0 := by
  induction l with
  | nil => simp at h
  | cons op rest ih =>
      by_cases hc : op.opType = OpType.create
      · cases happ : applyCreateModel c op.delta op.suffixData with
        | ok rm => exact ⟨rm, by simp [findValidCreate, hc, happ]⟩
        | error e =>
            obtain ⟨o, ho, hoc, rm, hrm⟩ := h
            rcases List.mem_cons.mp ho with rfl | ho2
            · rw [happ] at hrm
              exact absurd hrm (by simp)
            · obtain ⟨rm0, h0⟩ := ih ⟨o, ho2, hoc, rm, hrm⟩
              exact ⟨rm0, by simp [findValidCreate, hc, happ, h0]⟩
      · obtain ⟨o, ho, hoc, rm, hrm⟩ := h
        rcases List.mem_cons.mp ho with rfl | ho2
        · exact absurd hoc hc
        · obtain ⟨rm0, h0⟩ := ih ⟨o, ho2, hoc, rm, hrm⟩
          exact ⟨rm0, by simp [findValidCreate, hc, h0]⟩

theorem processorResolve_single (c : Crypto) (a : AnchoredOperation) (us : Str)
    (hsuf : a.uniqueSuffix = us) (htype : a.opType = OpType.create)
    (rm : ResolutionModel)
    (happ : applyCreateModel c a.delta a.suffixData = .ok rm) :
    processorResolve c [a] us = .ok { rm with published := true } := by
  subst hsuf
  simp [processorResolve, htype, happ, sortOps, insertSorted, findValidCreate,
    List.filter]

theorem transform_ok_shape (d : Option Document) (i uc rc : Str) (p : Bool)
    (cid : Option Str) (r : ResolutionResult)
    (h : transformToExternalDoc d i uc rc p cid = .ok r) :
    r.document.lookup idKey = some (.str i) ∧
    r.methodMetadata.lookup publishedKey = some (.bool p) ∧
    r.methodMetadata.lookup updateCommitmentKey = some (.str uc) ∧
    r.methodMetadata.lookup recoveryCommitmentKey = some (.str rc) := by
  have k1 : (publishedKey == publishedKey) = true := rfl
  have k2 : (updateCommitmentKey == publishedKey) = false := rfl
  have k3 : (updateCommitmentKey == updateCommitmentKey) = true := rfl
  have k4 : (recoveryCommitmentKey == publishedKey) = false := rfl
  have k5 : (recoveryCommitmentKey == updateCommitmentKey) = false := rfl
  have k6 : (recoveryCommitmentKey == recoveryCommitmentKey) = true := rfl
  have k7 : (idKey == idKey) = true := rfl
  cases d with
  | none => simp [transformToExternalDoc] at h
  | some dd =>
      simp only [transformToExternalDoc] at h
      injection h with h2
      subst h2
      cases cid with
      | none => simp [List.lookup, k1, k2, k3, k4, k5, k6, k7]
      | some cv => simp [List.lookup, k1, k2, k3, k4, k5, k6, k7]

theorem transform_canonical_some (d : Option Document) (i uc rc : Str)
    (p : Bool) (cv : Str) (r : ResolutionResult)
    (h : transformToExternalDoc d i uc rc p (some cv) = .ok r) :
    r.methodMetadata.lookup canonicalIdKey = some (.str cv) := by
  have k1 : (canonicalIdKey == publishedKey) = false := rfl
  have k2 : (canonicalIdKey == updateCommitmentKey) = false := rfl
  have k3 : (canonicalIdKey == recoveryCommitmentKey) = false := rfl
  have k4 : (canonicalIdKey == canonicalIdKey) = true := rfl
  cases d with
  | none => simp [transformToExternalDoc] at h
  | some dd =>
      simp only [transformToExternalDoc] at h
      injection h with h2
      subst h2
      simp [List.lookup, k1, k2, k3, k4]

/-- C7: `ResolveDocument` extracts the unique suffix by stripping the
configured namespace (or alias) prefix: an identifier that does not start
with the configured namespace fails with "did must start with configured
namespace", an identifier whose portion after the namespace delimiter is
empty fails with "did suffix is empty", and otherwise the suffix is exactly
the portion after the namespace and delimiter. -/
theorem c7_suffix_extraction (h : DocumentHandler) (pv : Protocol) (c : Crypto)
    (decode : Str → Option CreateRequest) (store : List AnchoredOperation)
    (id rest : Str)
    (hno : hasPfx id (h.nspace ++ [delim]) = false)
    (hnoAlias : h.aliases.find? (fun a => hasPfx id (a ++ [delim])) = none)
    (hne : rest ≠ []) :
    getSuffix h.nspace id = .error .mustStartWithNamespace ∧
    Err.message .mustStartWithNamespace =
      "did must start with configured namespace" ∧
    ResolveDocument h (.ok pv) c decode store id =
      .error .mustStartWithNamespace ∧
    getSuffix h.nspace (h.nspace ++ [delim]) = .error .didSuffixEmpty ∧
    Err.message .didSuffixEmpty = "did suffix is empty" ∧
    ResolveDocument h (.ok pv) c decode store (h.nspace ++ [delim]) =
      .error .didSuffixEmpty ∧
    getSuffix h.nspace (h.nspace ++ delim :: rest) = .ok rest := by
  refine ⟨?_, rfl, ?_, ?_, rfl, ?_, ?_⟩
  · unfold getSuffix
    rw [hno]
    simp
  · simp [ResolveDocument, getNamespace, hno, hnoAlias]
  · simpa using getSuffix_append h.nspace []
  · simp [ResolveDocument, getNamespace_append h ([] : Str),
      getSuffix_append h.nspace ([] : Str)]
  · rw [getSuffix_append, if_neg hne]

/-- Witness for C7 at a concrete handler and identifier. -/
theorem c7_witness :
    (hasPfx ['b', 'a', 'd'] (['n', 's'] ++ [delim]) = false ∧
     ([] : List Str).find?
       (fun a => hasPfx ['b', 'a', 'd'] (a ++ [delim])) = none ∧
     (['u'] : Str) ≠ []) ∧
    (getSuffix ['n', 's'] ['b', 'a', 'd'] = .error .mustStartWithNamespace ∧
     Err.message .mustStartWithNamespace =
       "did must start with configured namespace" ∧
     ResolveDocument ⟨['n', 's'], []⟩ (.ok ⟨100⟩)
       ⟨fun s => s, fun _ => [], fun _ => []⟩ (fun _ => none) [] ['b', 'a', 'd'] =
       .error .mustStartWithNamespace ∧
     getSuffix ['n', 's'] (['n', 's'] ++ [delim]) = .error .didSuffixEmpty ∧
     Err.message .didSuffixEmpty = "did suffix is empty" ∧
     ResolveDocument ⟨['n', 's'], []⟩ (.ok ⟨100⟩)
       ⟨fun s => s, fun _ => [], fun _ => []⟩ (fun _ => none) []
       (['n', 's'] ++ [delim]) = .error .didSuffixEmpty ∧
     getSuffix ['n', 's'] (['n', 's'] ++ delim :: ['u']) = .ok ['u']) :=
  ⟨⟨rfl, rfl, by decide⟩,
   c7_suffix_extraction ⟨['n', 's'], []⟩ ⟨100⟩
     ⟨fun s => s, fun _ => [], fun _ => []⟩ (fun _ => none) []
     ['b', 'a', 'd'] ['u'] rfl rfl (by decide)⟩

/-- C8: when the protocol client reports an error, both `ProcessOperation`
and `ResolveDocument` surface that exact error unchanged and return no
document or result. -/
theorem c8_protocol_error_surfaced (h : DocumentHandler) (c : Crypto)
    (decode : Str → Option CreateRequest) (store : List AnchoredOperation)
    (queue : List Operation) (op : Operation) (t : Nat) (e : Err)
    (rest : Str) :
    ProcessOperation h (.error e) c queue op t = .error e ∧
    ResolveDocument h (.error e) c decode store (h.nspace ++ delim :: rest) =
      .error e := by
  constructor
  · rfl
  · simp [ResolveDocument, getNamespace_append]

/-- C9: the DID document transformer rejects incomplete inputs with an error
and no result: a missing resolution model, missing transformation info,
info lacking the `id` entry, and info lacking the `published` entry. -/
theorem c9_transformer_rejects_incomplete (t : Transformer)
    (rm : ResolutionModel) (info : TransformationInfo) :
    TransformDocument t none (some info) = .error .resolutionModelRequired ∧
    TransformDocument t (some rm) none = .error .transformationInfoRequired ∧
    (info.lookup idKey = none →
      TransformDocument t (some rm) (some info) = .error .idRequired) ∧
    (∀ v, info.lookup idKey = some v → info.lookup publishedKey = none →
      TransformDocument t (some rm) (some info) = .error .publishedRequired) := by
  refine ⟨rfl, rfl, ?_, ?_⟩
  · intro hid
    simp [TransformDocument, hid]
  · intro v hid hpub
    simp [TransformDocument, hid, hpub]

/-- Witness for C9: concrete transformation infos missing the id entry and
the published entry. -/
theorem c9_witness :
    (([] : TransformationInfo).lookup idKey = none ∧
      TransformDocument ⟨[], false⟩ (some ⟨[], [], [], false, false⟩)
        (some []) = .error .idRequired) ∧
    (([(idKey, Value.str ['x'])] : TransformationInfo).lookup idKey =
        some (Value.str ['x']) ∧
     ([(idKey, Value.str ['x'])] : TransformationInfo).lookup publishedKey =
        none ∧
     TransformDocument ⟨[], false⟩ (some ⟨[], [], [], false, false⟩)
        (some [(idKey, Value.str ['x'])]) = .error .publishedRequired) :=
  ⟨⟨rfl, (c9_transformer_rejects_incomplete ⟨[], false⟩
      ⟨[], [], [], false, false⟩ []).2.2.1 rfl⟩,
   ⟨rfl, rfl, (c9_transformer_rejects_incomplete ⟨[], false⟩
      ⟨[], [], [], false, false⟩ [(idKey, Value.str ['x'])]).2.2.2
      (Value.str ['x']) rfl rfl⟩⟩

/-- C10 (amended): for every successful `TransformDocument` call, the
external document's id equals the id supplied in the transformation info and
its `@context` starts with the standard DID context followed by the
configured method contexts in configured order; when the transformer is not
configured to include an `@base` entry (the default), the context list has
exactly 1 + n entries for n configured method contexts, while a transformer
configured with base appends one additional `@base` context entry at the
end. -/
theorem c10_transform_context (t : Transformer) (rm : ResolutionModel)
    (info : TransformationInfo) (idVal pubVal : Value) (r : ResolutionResult)
    (hid : info.lookup idKey = some idVal)
    (hpub : info.lookup publishedKey = some pubVal)
    (hr : TransformDocument t (some rm) (some info) = .ok r) :
    r.document.lookup idKey = some idVal ∧
    r.document.lookup contextKey =
      some (.arr ((.str didContext) :: (t.methodCtx.map .str ++
        (if t.includeBase then [Value.obj [(baseKey, idVal)]] else [])))) ∧
    (t.includeBase = false →
      r.document.lookup contextKey =
        some (.arr ((.str didContext) :: t.methodCtx.map .str)) ∧
      ((.str didContext) :: t.methodCtx.map Value.str).length =
        1 + t.methodCtx.length) := by
  have k1 : (idKey == contextKey) = false := rfl
  have k2 : (idKey == idKey) = true := rfl
  have k3 : (contextKey == contextKey) = true := rfl
  simp only [TransformDocument, hid, hpub] at hr
  injection hr with h2
  subst h2
  refine ⟨?_, ?_, ?_⟩
  · simp [List.lookup, k1, k2]
  · simp [List.lookup, k3]
  · intro hb
    simp [List.lookup, k3, hb, Nat.add_comm]

/-- Witness for C10 at a concrete transformer with two method contexts. -/
theorem c10_witness :
    (([(idKey, Value.str ['x']), (publishedKey, Value.bool true)] :
        TransformationInfo).lookup idKey = some (Value.str ['x']) ∧
     ([(idKey, Value.str ['x']), (publishedKey, Value.bool true)] :
        TransformationInfo).lookup publishedKey = some (Value.bool true) ∧
     TransformDocument ⟨[['c', '1'], ['c', '2']], false⟩
       (some ⟨[], ['u'], ['w'], false, false⟩)
       (some [(idKey, Value.str ['x']), (publishedKey, Value.bool true)]) =
       .ok ⟨[(contextKey,
               .arr [.str didContext, .str ['c', '1'], .str ['c', '2']]),
             (idKey, .str ['x'])],
            [(publishedKey, .bool true), (recoveryCommitmentKey, .str ['w']),
             (updateCommitmentKey, .str ['u'])], []⟩) ∧
    ((⟨[(contextKey,
          .arr [.str didContext, .str ['c', '1'], .str ['c', '2']]),
        (idKey, .str ['x'])],
       [(publishedKey, .bool true), (recoveryCommitmentKey, .str ['w']),
        (updateCommitmentKey, .str ['u'])], []⟩ :
        ResolutionResult).document.lookup idKey = some (Value.str ['x']) ∧
     (⟨[(contextKey,
          .arr [.str didContext, .str ['c', '1'], .str ['c', '2']]),
        (idKey, .str ['x'])],
       [(publishedKey, .bool true), (recoveryCommitmentKey, .str ['w']),
        (updateCommitmentKey, .str ['u'])], []⟩ :
        ResolutionResult).document.lookup contextKey =
       some (.arr ((.str didContext) ::
         ((⟨[['c', '1'], ['c', '2']], false⟩ : Transformer).methodCtx.map .str ++
           (if (⟨[['c', '1'], ['c', '2']], false⟩ : Transformer).includeBase then
             [Value.obj [(baseKey, Value.str ['x'])]]
            else []))))) := by
  refine ⟨⟨rfl, rfl, rfl⟩, ?_⟩
  have h10 := c10_transform_context ⟨[['c', '1'], ['c', '2']], false⟩
    ⟨[], ['u'], ['w'], false, false⟩
    [(idKey, Value.str ['x']), (publishedKey, Value.bool true)]
    (Value.str ['x']) (Value.bool true)
    ⟨[(contextKey, .arr [.str didContext, .str ['c', '1'], .str ['c', '2']]),
      (idKey, .str ['x'])],
     [(publishedKey, .bool true), (recoveryCommitmentKey, .str ['w']),
      (updateCommitmentKey, .str ['u'])], []⟩ rfl rfl rfl
  exact ⟨h10.1, h10.2.1⟩

/-- Counterexample for C10 as stated: a transformer configured with
`WithBase(true)` and no method contexts produces a context list with 2
entries, not 1 + 0. -/
theorem c10_counterexample :
    contextLength (TransformDocument ⟨[], true⟩
      (some ⟨[], ['u'], ['w'], false, false⟩)
      (some [(idKey, Value.str ['x']), (publishedKey, Value.bool true)])) =
      some 2 ∧
    (⟨[], true⟩ : Transformer).methodCtx.length = 0 ∧
    ¬ (2 = 1 + 0) := ⟨rfl, rfl, by decide⟩

/-- C2: `ProcessOperation` returns a non-nil externally-visible document and
no error for a valid Create, and a nil document with no error for a valid
Update, Recover or Deactivate; in every case the operation is validated and
then enqueued. -/
theorem c2_process_operation (h : DocumentHandler) (pv : Protocol) (c : Crypto)
    (queue : List Operation) (op : Operation) (t : Nat)
    (hsize : op.operationBuffer.length ≤ pv.maxOperationSize) :
    (∀ rm, op.opType = OpType.create →
      applyCreateModel c op.delta op.suffixData = .ok rm →
      ∃ r, ProcessOperation h (.ok pv) c queue op t =
        .ok (some r, queue ++ [op])) ∧
    (op.opType ≠ OpType.create →
      ProcessOperation h (.ok pv) c queue op t = .ok (none, queue ++ [op])) := by
  have hno : ¬ op.operationBuffer.length > pv.maxOperationSize := by omega
  constructor
  · intro rm hc happ
    refine ⟨⟨(idKey, .str op.id) :: rm.doc,
      [(publishedKey, .bool false), (updateCommitmentKey, .str rm.updateCommitment),
       (recoveryCommitmentKey, .str rm.recoveryCommitment)], []⟩, ?_⟩
    simp [ProcessOperation, hno, hc, happ, transformToExternalDoc]
  · intro hnc
    cases hop : op.opType with
    | create => exact absurd hop hnc
    | update => simp [ProcessOperation, hno, hop]
    | recover => simp [ProcessOperation, hno, hop]
    | deactivate => simp [ProcessOperation, hno, hop]

/-- Witness for C2: a concrete valid Create and a concrete Update. -/
theorem c2_witness :
    ((['b'] : Str).length ≤ 100 ∧
     applyCreateModel ⟨fun s => s, fun _ => ['d'], fun _ => ['u', 's']⟩
       ⟨[], ['u', 'c']⟩ ⟨['d'], ['r', 'c']⟩ =
       .ok ⟨[], ['u', 'c'], ['r', 'c'], false, false⟩ ∧
     (∃ r, ProcessOperation ⟨['n', 's'], []⟩ (.ok ⟨100⟩)
        ⟨fun s => s, fun _ => ['d'], fun _ => ['u', 's']⟩ []
        ⟨OpType.create, ['u', 's'], ['n', 's', ':', 'u', 's'], ['b'],
         ⟨[], ['u', 'c']⟩, ⟨['d'], ['r', 'c']⟩⟩ 0 =
        .ok (some r, [] ++ [⟨OpType.create, ['u', 's'],
          ['n', 's', ':', 'u', 's'], ['b'], ⟨[], ['u', 'c']⟩,
          ⟨['d'], ['r', 'c']⟩⟩]))) ∧
    (OpType.update ≠ OpType.create ∧
     ProcessOperation ⟨['n', 's'], []⟩ (.ok ⟨100⟩)
       ⟨fun s => s, fun _ => ['d'], fun _ => ['u', 's']⟩ []
       ⟨OpType.update, ['u', 's'], ['n', 's', ':', 'u', 's'], ['b'],
        ⟨[], ['u', 'c']⟩, ⟨['d'], ['r', 'c']⟩⟩ 0 =
       .ok (none, [] ++ [⟨OpType.update, ['u', 's'],
         ['n', 's', ':', 'u', 's'], ['b'], ⟨[], ['u', 'c']⟩,
         ⟨['d'], ['r', 'c']⟩⟩])) :=
  ⟨⟨by decide, rfl,
    (c2_process_operation ⟨['n', 's'], []⟩ ⟨100⟩
      ⟨fun s => s, fun _ => ['d'], fun _ => ['u', 's']⟩ []
      ⟨OpType.create, ['u', 's'], ['n', 's', ':', 'u', 's'], ['b'],
       ⟨[], ['u', 'c']⟩, ⟨['d'], ['r', 'c']⟩⟩ 0 (by decide)).1
      ⟨[], ['u', 'c'], ['r', 'c'], false, false⟩ rfl rfl⟩,
   ⟨by decide,
    (c2_process_operation ⟨['n', 's'], []⟩ ⟨100⟩
      ⟨fun s => s, fun _ => ['d'], fun _ => ['u', 's']⟩ []
      ⟨OpType.update, ['u', 's'], ['n', 's', ':', 'u', 's'], ['b'],
       ⟨[], ['u', 'c']⟩, ⟨['d'], ['r', 'c']⟩⟩ 0 (by decide)).2
      (by decide)⟩⟩

/-- Counterexample for C3 as stated: a long-form identifier whose encoded
initial-state part exceeds `MaxOperationSize` (length 3 > 2) is still
resolved successfully — not rejected — when the requested suffix already has
an anchored Create in the store, because the store is consulted before the
embedded operation is parsed. -/
theorem c3_counterexample :
    (['e', '1', '2'] : Str).length > (⟨2⟩ : Protocol).maxOperationSize ∧
    isOkResult (ResolveDocument ⟨['n', 's'], []⟩ (.ok ⟨2⟩)
      ⟨fun s => s, fun _ => ['d'], fun _ => ['u']⟩ (fun _ => none)
      [⟨OpType.create, ['u'], ⟨[], ['u', 'c']⟩, ⟨['d'], ['r', 'c']⟩, [], 0, 0⟩]
      ((['n', 's'] ++ delim :: ['u']) ++ delim :: ['e', '1', '2'])) = true :=
  ⟨by decide, rfl⟩

/-- C3 (amended): an operation whose encoded byte size exceeds the active
protocol version's `MaxOperationSize` is rejected by `ProcessOperation` with
the descriptive size error and is never enqueued; long-form
`ResolveDocument` rejects such an embedded operation with the same error
whenever the requested suffix has no anchored (valid) Create in the store —
when the suffix is anchored, the document is served from the store and the
embedded operation is not parsed at all. -/
theorem c3_max_operation_size (h : DocumentHandler) (pv : Protocol)
    (c : Crypto) (decode : Str → Option CreateRequest)
    (store : List AnchoredOperation) (queue : List Operation) (op : Operation)
    (t : Nat) (us s : Str)
    (hover1 : op.operationBuffer.length > pv.maxOperationSize)
    (hover2 : s.length > pv.maxOperationSize)
    (hnc : delim ∉ us)
    (hnf : processorResolve c store us = .error Err.notFound) :
    ProcessOperation h (.ok pv) c queue op t = .error .badRequestSize ∧
    ResolveDocument h (.ok pv) c decode store
      ((h.nspace ++ delim :: us) ++ delim :: s) = .error .badRequestSize ∧
    Err.message .badRequestSize =
      "bad request: operation byte size exceeds protocol max operation byte size" := by
  refine ⟨?_, ?_, rfl⟩
  · simp [ProcessOperation, hover1]
  · have hid : (h.nspace ++ delim :: us) ++ delim :: s =
        h.nspace ++ delim :: (us ++ delim :: s) := by simp
    rw [hid]
    simp [ResolveDocument, getNamespace_append, getSuffix_append,
      splitFirst_append delim us s hnc, resolveShortForm, hnf,
      resolveWithInitialState, hover2]

/-- Witness for C3 (amended) with `MaxOperationSize = 2` and an empty
store. -/
theorem c3_witness :
    ((['b', '1', '2'] : Str).length > (⟨2⟩ : Protocol).maxOperationSize ∧
     (['e', '1', '2'] : Str).length > (⟨2⟩ : Protocol).maxOperationSize ∧
     delim ∉ (['u'] : Str) ∧
     processorResolve ⟨fun s => s, fun _ => ['d'], fun _ => ['u']⟩ [] ['u'] =
       .error Err.notFound) ∧
    (ProcessOperation ⟨['n', 's'], []⟩ (.ok ⟨2⟩)
       ⟨fun s => s, fun _ => ['d'], fun _ => ['u']⟩ []
       ⟨OpType.create, ['u'], ['n', 's', ':', 'u'], ['b', '1', '2'],
        ⟨[], ['u', 'c']⟩, ⟨['d'], ['r', 'c']⟩⟩ 0 = .error .badRequestSize ∧
     ResolveDocument ⟨['n', 's'], []⟩ (.ok ⟨2⟩)
       ⟨fun s => s, fun _ => ['d'], fun _ => ['u']⟩ (fun _ => none) []
       (((['n', 's'] : Str) ++ delim :: ['u']) ++ delim :: ['e', '1', '2']) =
       .error .badRequestSize ∧
     Err.message .badRequestSize =
       "bad request: operation byte size exceeds protocol max operation byte size") :=
  ⟨⟨by decide, by decide, by decide, rfl⟩,
   c3_max_operation_size ⟨['n', 's'], []⟩ ⟨2⟩
     ⟨fun s => s, fun _ => ['d'], fun _ => ['u']⟩ (fun _ => none) [] []
     ⟨OpType.create, ['u'], ['n', 's', ':', 'u'], ['b', '1', '2'],
      ⟨[], ['u', 'c']⟩, ⟨['d'], ['r', 'c']⟩⟩ 0 ['u'] ['e', '1', '2']
     (by decide) (by decide) (by decide) rfl⟩

/-- C6: for a short-form identifier with a valid namespace and non-empty
suffix whose suffix has no anchored Create in the store, `ResolveDocument`
fails with the not-found error; after an anchored (valid) Create for that
suffix is put into the store, the same call succeeds. -/
theorem c6_not_found_then_found (h : DocumentHandler) (pv : Protocol)
    (c : Crypto) (decode : Str → Option CreateRequest)
    (store : List AnchoredOperation) (us : Str) (a : AnchoredOperation)
    (hne : us ≠ []) (hnc : delim ∉ us)
    (hnone : ∀ op ∈ store, op.uniqueSuffix = us → op.opType ≠ OpType.create)
    (hasuf : a.uniqueSuffix = us) (hatype : a.opType = OpType.create)
    (rma : ResolutionModel)
    (happ : applyCreateModel c a.delta a.suffixData = .ok rma) :
    (ResolveDocument h (.ok pv) c decode store (h.nspace ++ delim :: us) =
       .error .notFound ∧
     Err.message .notFound = "not found") ∧
    ∃ r, ResolveDocument h (.ok pv) c decode (store ++ [a])
      (h.nspace ++ delim :: us) = .ok r := by
  have hfil : ∀ op ∈ sortOps (store.filter (fun op => op.uniqueSuffix == us)),
      op.opType ≠ OpType.create := by
    intro op hop
    have h1 := (mem_sortOps op _).mp hop
    have h2 := List.mem_filter.mp h1
    exact hnone op h2.1 (by simpa using h2.2)
  have hpr : processorResolve c store us = .error .notFound := by
    simp [processorResolve, findValidCreate_eq_none c _ hfil]
  constructor
  · refine ⟨?_, rfl⟩
    simp [ResolveDocument, getNamespace_append, getSuffix_append, hne,
      splitFirst_of_not_mem delim us hnc, resolveShortForm, hpr]
  · have hmem : ∃ op ∈ sortOps ((store ++ [a]).filter
        (fun op => op.uniqueSuffix == us)), op.opType = OpType.create ∧
        ∃ rm, applyCreateModel c op.delta op.suffixData = .ok rm := by
      refine ⟨a, ?_, hatype, rma, happ⟩
      refine (mem_sortOps a _).mpr (List.mem_filter.mpr ⟨?_, ?_⟩)
      · exact List.mem_append_right store (List.mem_singleton.mpr rfl)
      · simp [hasuf]
    obtain ⟨rm0, hfind⟩ := findValidCreate_isSome c _ hmem
    have hprf : ∃ rmf, processorResolve c (store ++ [a]) us = .ok rmf := by
      simp only [processorResolve]
      rw [hfind]
      exact ⟨_, rfl⟩
    obtain ⟨rmf, hprf2⟩ := hprf
    refine ⟨⟨(idKey, .str (h.nspace ++ delim :: us)) :: rmf.doc,
      [(publishedKey, .bool rmf.published),
       (updateCommitmentKey, .str rmf.updateCommitment),
       (recoveryCommitmentKey, .str rmf.recoveryCommitment)], []⟩, ?_⟩
    simp [ResolveDocument, getNamespace_append, getSuffix_append, hne,
      splitFirst_of_not_mem delim us hnc, resolveShortForm, hprf2,
      transformToExternalDoc]

/-- Witness for C6: an empty store, then the store holding one anchored
Create. -/
theorem c6_witness :
    ((['u'] : Str) ≠ [] ∧ delim ∉ (['u'] : Str) ∧
     applyCreateModel ⟨fun s => s, fun _ => ['d'], fun _ => ['u']⟩
       ⟨[], ['u', 'c']⟩ ⟨['d'], ['r', 'c']⟩ =
       .ok ⟨[], ['u', 'c'], ['r', 'c'], false, false⟩) ∧
    ((ResolveDocument ⟨['n', 's'], []⟩ (.ok ⟨100⟩)
        ⟨fun s => s, fun _ => ['d'], fun _ => ['u']⟩ (fun _ => none) []
        (['n', 's'] ++ delim :: ['u']) = .error .notFound ∧
      Err.message .notFound = "not found") ∧
     ∃ r, ResolveDocument ⟨['n', 's'], []⟩ (.ok ⟨100⟩)
        ⟨fun s => s, fun _ => ['d'], fun _ => ['u']⟩ (fun _ => none)
        ([] ++ [⟨OpType.create, ['u'], ⟨[], ['u', 'c']⟩, ⟨['d'], ['r', 'c']⟩,
          [], 0, 0⟩])
        (['n', 's'] ++ delim :: ['u']) = .ok r) :=
  ⟨⟨by decide, by decide, rfl⟩,
   c6_not_found_then_found ⟨['n', 's'], []⟩ ⟨100⟩
     ⟨fun s => s, fun _ => ['d'], fun _ => ['u']⟩ (fun _ => none) [] ['u']
     ⟨OpType.create, ['u'], ⟨[], ['u', 'c']⟩, ⟨['d'], ['r', 'c']⟩, [], 0, 0⟩
     (by decide) (by decide) (by simp) rfl rfl
     ⟨[], ['u', 'c'], ['r', 'c'], false, false⟩ rfl⟩

/-- C1: resolving a Create's long-form identifier
(namespace:suffix:encodedInitialState) before it is anchored and resolving
the short-form identifier after that same Create is anchored yield the same
document and commitments, differing only in the published flag of the method
metadata (false for long-form/unanchored, true for short-form/anchored). -/
theorem c1_long_short_equivalence (h : DocumentHandler) (pv : Protocol)
    (c : Crypto) (decode : Str → Option CreateRequest) (delta : Delta)
    (sd : SuffixData) (s : Str)
    (hguard : c.hash (c.canonDelta delta) = sd.deltaHash)
    (hsize : ¬ s.length > pv.maxOperationSize)
    (hdec : decode s = some ⟨delta, sd⟩)
    (hnc : delim ∉ calculateUniqueSuffix c sd)
    (hne : calculateUniqueSuffix c sd ≠ []) :
    ∃ r1 r2,
      ResolveDocument h (.ok pv) c decode []
        ((h.nspace ++ delim :: calculateUniqueSuffix c sd) ++ delim :: s) =
        .ok r1 ∧
      ResolveDocument h (.ok pv) c decode
        [⟨OpType.create, calculateUniqueSuffix c sd, delta, sd, [], 0, 0⟩]
        (h.nspace ++ delim :: calculateUniqueSuffix c sd) = .ok r2 ∧
      r1.document = r2.document ∧
      r1.methodMetadata.lookup publishedKey = some (.bool false) ∧
      r2.methodMetadata.lookup publishedKey = some (.bool true) ∧
      r1.methodMetadata.lookup updateCommitmentKey =
        r2.methodMetadata.lookup updateCommitmentKey ∧
      r1.methodMetadata.lookup recoveryCommitmentKey =
        r2.methodMetadata.lookup recoveryCommitmentKey ∧
      r1.documentMetadata = r2.documentMetadata := by
  have happ : applyCreateModel c delta sd =
      .ok ⟨applyPatches [] delta.patches, delta.updateCommitment,
           sd.recoveryCommitment, false, false⟩ := by
    simp [applyCreateModel, hguard]
  have hps := processorResolve_single c
    ⟨OpType.create, calculateUniqueSuffix c sd, delta, sd, [], 0, 0⟩
    (calculateUniqueSuffix c sd) rfl rfl _ happ
  refine ⟨⟨(idKey, .str (h.nspace ++ delim :: calculateUniqueSuffix c sd)) ::
      applyPatches [] delta.patches,
      [(publishedKey, .bool false),
       (updateCommitmentKey, .str delta.updateCommitment),
       (recoveryCommitmentKey, .str sd.recoveryCommitment)], []⟩,
    ⟨(idKey, .str (h.nspace ++ delim :: calculateUniqueSuffix c sd)) ::
      applyPatches [] delta.patches,
      [(publishedKey, .bool true),
       (updateCommitmentKey, .str delta.updateCommitment),
       (recoveryCommitmentKey, .str sd.recoveryCommitment)], []⟩,
    ?_, ?_, rfl, rfl, rfl, rfl, rfl, rfl⟩
  · have hid1 : (h.nspace ++ delim :: calculateUniqueSuffix c sd) ++
        delim :: s =
        h.nspace ++ delim :: (calculateUniqueSuffix c sd ++ delim :: s) := by
      simp
    rw [hid1]
    simp [ResolveDocument, getNamespace_append, getSuffix_append,
      splitFirst_append delim _ s hnc, resolveShortForm, processorResolve_nil,
      resolveWithInitialState, hsize, hdec, applyCreateModel, hguard,
      transformToExternalDoc]
  · simp [ResolveDocument, getNamespace_append, getSuffix_append, hne,
      splitFirst_of_not_mem delim _ hnc, resolveShortForm, hps,
      transformToExternalDoc]

/-- Witness for C1 at a concrete handler, crypto collaborator and Create. -/
theorem c1_witness :
    ((⟨fun s => s, fun _ => ['d'], fun _ => ['u', 's']⟩ : Crypto).hash
       ((⟨fun s => s, fun _ => ['d'], fun _ => ['u', 's']⟩ : Crypto).canonDelta
         ⟨[], ['u', 'c']⟩) = (⟨['d'], ['r', 'c']⟩ : SuffixData).deltaHash ∧
     ¬ (['e'] : Str).length > (⟨100⟩ : Protocol).maxOperationSize ∧
     (fun t => if t = ['e'] then
        some (⟨⟨[], ['u', 'c']⟩, ⟨['d'], ['r', 'c']⟩⟩ : CreateRequest)
      else none) ['e'] =
       some ⟨⟨[], ['u', 'c']⟩, ⟨['d'], ['r', 'c']⟩⟩ ∧
     delim ∉ calculateUniqueSuffix
       ⟨fun s => s, fun _ => ['d'], fun _ => ['u', 's']⟩ ⟨['d'], ['r', 'c']⟩ ∧
     calculateUniqueSuffix ⟨fun s => s, fun _ => ['d'], fun _ => ['u', 's']⟩
       ⟨['d'], ['r', 'c']⟩ ≠ []) ∧
    (∃ r1 r2,
      ResolveDocument ⟨['n', 's'], []⟩ (.ok ⟨100⟩)
        ⟨fun s => s, fun _ => ['d'], fun _ => ['u', 's']⟩
        (fun t => if t = ['e'] then
           some (⟨⟨[], ['u', 'c']⟩, ⟨['d'], ['r', 'c']⟩⟩ : CreateRequest)
         else none) []
        (((['n', 's'] : Str) ++ delim :: calculateUniqueSuffix
            ⟨fun s => s, fun _ => ['d'], fun _ => ['u', 's']⟩
            ⟨['d'], ['r', 'c']⟩) ++ delim :: ['e']) = .ok r1 ∧
      ResolveDocument ⟨['n', 's'], []⟩ (.ok ⟨100⟩)
        ⟨fun s => s, fun _ => ['d'], fun _ => ['u', 's']⟩
        (fun t => if t = ['e'] then
           some (⟨⟨[], ['u', 'c']⟩, ⟨['d'], ['r', 'c']⟩⟩ : CreateRequest)
         else none)
        [⟨OpType.create, calculateUniqueSuffix
            ⟨fun s => s, fun _ => ['d'], fun _ => ['u', 's']⟩
            ⟨['d'], ['r', 'c']⟩, ⟨[], ['u', 'c']⟩, ⟨['d'], ['r', 'c']⟩,
          [], 0, 0⟩]
        ((['n', 's'] : Str) ++ delim :: calculateUniqueSuffix
            ⟨fun s => s, fun _ => ['d'], fun _ => ['u', 's']⟩
            ⟨['d'], ['r', 'c']⟩) = .ok r2 ∧
      r1.document = r2.document ∧
      r1.methodMetadata.lookup publishedKey = some (.bool false) ∧
      r2.methodMetadata.lookup publishedKey = some (.bool true) ∧
      r1.methodMetadata.lookup updateCommitmentKey =
        r2.methodMetadata.lookup updateCommitmentKey ∧
      r1.methodMetadata.lookup recoveryCommitmentKey =
        r2.methodMetadata.lookup recoveryCommitmentKey ∧
      r1.documentMetadata = r2.documentMetadata) :=
  ⟨⟨rfl, by decide, rfl, by decide, by decide⟩,
   c1_long_short_equivalence ⟨['n', 's'], []⟩ ⟨100⟩
     ⟨fun s => s, fun _ => ['d'], fun _ => ['u', 's']⟩
     (fun t => if t = ['e'] then
        some (⟨⟨[], ['u', 'c']⟩, ⟨['d'], ['r', 'c']⟩⟩ : CreateRequest)
      else none)
     ⟨[], ['u', 'c']⟩ ⟨['d'], ['r', 'c']⟩ ['e'] rfl (by decide) rfl
     (by decide) (by decide)⟩

theorem resolveShortForm_shape (h : DocumentHandler) (c : Crypto)
    (store : List AnchoredOperation) (ns us d : Str) (r : ResolutionResult)
    (hr : resolveShortForm h c store ns us d = .ok r) :
    ∃ rm, processorResolve c store us = .ok rm ∧
      r.document.lookup idKey = some (.str d) ∧
      r.methodMetadata.lookup publishedKey = some (.bool rm.published) ∧
      r.methodMetadata.lookup updateCommitmentKey =
        some (.str rm.updateCommitment) ∧
      r.methodMetadata.lookup recoveryCommitmentKey =
        some (.str rm.recoveryCommitment) ∧
      (ns ≠ h.nspace →
        r.methodMetadata.lookup canonicalIdKey =
          some (.str (h.nspace ++ delim :: us))) := by
  unfold resolveShortForm at hr
  cases hps : processorResolve c store us with
  | error e => rw [hps] at hr; simp at hr
  | ok rm =>
      rw [hps] at hr
      refine ⟨rm, rfl, ?_⟩
      by_cases hns : ns = h.nspace
      · rw [if_pos hns] at hr
        have hs := transform_ok_shape _ _ _ _ _ _ _ hr
        exact ⟨hs.1, hs.2.1, hs.2.2.1, hs.2.2.2, fun hne2 => absurd hns hne2⟩
      · rw [if_neg hns] at hr
        have hs := transform_ok_shape _ _ _ _ _ _ _ hr
        have hcn := transform_canonical_some _ _ _ _ _ _ _ hr
        exact ⟨hs.1, hs.2.1, hs.2.2.1, hs.2.2.2, fun _ => hcn⟩

theorem resolveInit_shape (h : DocumentHandler) (pv : Protocol) (c : Crypto)
    (decode : Str → Option CreateRequest) (ns us encoded : Str)
    (r : ResolutionResult)
    (hr : resolveWithInitialState h pv c decode ns us encoded = .ok r) :
    r.document.lookup idKey = some (.str (ns ++ delim :: us)) ∧
    r.methodMetadata.lookup publishedKey = some (.bool false) ∧
    (∃ u, r.methodMetadata.lookup updateCommitmentKey = some (.str u)) ∧
    (∃ w, r.methodMetadata.lookup recoveryCommitmentKey = some (.str w)) := by
  unfold resolveWithInitialState at hr
  split at hr
  · simp at hr
  · cases hdec : decode encoded with
    | none => simp [hdec] at hr
    | some req =>
        simp only [hdec] at hr
        split at hr
        · cases happ : applyCreateModel c req.delta req.suffixData with
          | error e => simp [happ] at hr
          | ok rm =>
              simp only [happ] at hr
              have hs := transform_ok_shape _ _ _ _ _ _ _ hr
              exact ⟨hs.1, hs.2.1, ⟨_, hs.2.2.1⟩, ⟨_, hs.2.2.2⟩⟩
        · simp at hr

/-- Counterexample for C4 as stated: a long-form identifier whose embedded
initial state decodes to a Create whose derived suffix (here the hash value
`x`) does not match the requested suffix (`u`) is still resolved
successfully — not rejected — when the requested suffix already has an
anchored Create in the store, because the suffix check only happens on the
in-memory fallback path. -/
theorem c4_counterexample :
    (fun t : Str => if t = ['e'] then
       some (⟨⟨[], ['u', 'c']⟩, ⟨['d'], ['q']⟩⟩ : CreateRequest)
     else none) ['e'] = some ⟨⟨[], ['u', 'c']⟩, ⟨['d'], ['q']⟩⟩ ∧
    calculateUniqueSuffix ⟨fun s => s, fun _ => ['d'], fun _ => ['x']⟩
      (⟨['d'], ['q']⟩ : SuffixData) ≠ (['u'] : Str) ∧
    isOkResult (ResolveDocument ⟨['n', 's'], []⟩ (.ok ⟨100⟩)
      ⟨fun s => s, fun _ => ['d'], fun _ => ['x']⟩
      (fun t => if t = ['e'] then
         some (⟨⟨[], ['u', 'c']⟩, ⟨['d'], ['q']⟩⟩ : CreateRequest)
       else none)
      [⟨OpType.create, ['u'], ⟨[], ['u', 'c']⟩, ⟨['d'], ['r', 'c']⟩, [], 0, 0⟩]
      ((['n', 's'] ++ delim :: ['u']) ++ delim :: ['e'])) = true :=
  ⟨rfl, by decide, rfl⟩

/-- C4 (amended): for a long-form identifier whose requested suffix has no
anchored Create in the store and whose embedded initial state decodes to a
Create operation, `ResolveDocument` fails with the mismatch error when the
suffix derived from the embedded initial state does not match the requested
suffix; when they match (and the create is valid), it resolves entirely
in-memory and the method metadata reports the document as not published. -/
theorem c4_initial_state_resolution (h : DocumentHandler) (pv : Protocol)
    (c : Crypto) (decode : Str → Option CreateRequest)
    (store : List AnchoredOperation) (us s : Str) (req : CreateRequest)
    (hnc : delim ∉ us)
    (hnf : processorResolve c store us = .error Err.notFound)
    (hsize : ¬ s.length > pv.maxOperationSize)
    (hdec : decode s = some req) :
    (calculateUniqueSuffix c req.suffixData ≠ us →
      ResolveDocument h (.ok pv) c decode store
        ((h.nspace ++ delim :: us) ++ delim :: s) = .error .didMismatch ∧
      Err.message .didMismatch =
        "provided did doesn't match did created from initial state") ∧
    (calculateUniqueSuffix c req.suffixData = us →
      ∀ rm, applyCreateModel c req.delta req.suffixData = .ok rm →
      ∃ r, ResolveDocument h (.ok pv) c decode store
        ((h.nspace ++ delim :: us) ++ delim :: s) = .ok r ∧
        r.methodMetadata.lookup publishedKey = some (.bool false)) := by
  have hid1 : (h.nspace ++ delim :: us) ++ delim :: s =
      h.nspace ++ delim :: (us ++ delim :: s) := by simp
  constructor
  · intro hmis
    refine ⟨?_, rfl⟩
    rw [hid1]
    simp [ResolveDocument, getNamespace_append, getSuffix_append,
      splitFirst_append delim us s hnc, resolveShortForm, hnf,
      resolveWithInitialState, hsize, hdec, hmis]
  · intro hmatch rm happ
    refine ⟨⟨(idKey, .str (h.nspace ++ delim :: us)) :: rm.doc,
      [(publishedKey, .bool false),
       (updateCommitmentKey, .str rm.updateCommitment),
       (recoveryCommitmentKey, .str rm.recoveryCommitment)], []⟩, ?_, rfl⟩
    rw [hid1]
    simp [ResolveDocument, getNamespace_append, getSuffix_append,
      splitFirst_append delim us s hnc, resolveShortForm, hnf,
      resolveWithInitialState, hsize, hdec, hmatch, happ,
      transformToExternalDoc]

/-- Witness for C4 (amended): a mismatching and a matching embedded initial
state, each against an empty store. -/
theorem c4_witness :
    ((delim ∉ (['u'] : Str) ∧
      processorResolve ⟨fun s => s, fun _ => ['d'], fun _ => ['x']⟩ [] ['u'] =
        .error Err.notFound ∧
      ¬ (['e'] : Str).length > (⟨100⟩ : Protocol).maxOperationSize ∧
      calculateUniqueSuffix ⟨fun s => s, fun _ => ['d'], fun _ => ['x']⟩
        (⟨['d'], ['q']⟩ : SuffixData) ≠ (['u'] : Str)) ∧
     ResolveDocument ⟨['n', 's'], []⟩ (.ok ⟨100⟩)
       ⟨fun s => s, fun _ => ['d'], fun _ => ['x']⟩
       (fun t => if t = ['e'] then
          some (⟨⟨[], ['u', 'c']⟩, ⟨['d'], ['q']⟩⟩ : CreateRequest)
        else none) []
       (((['n', 's'] : Str) ++ delim :: ['u']) ++ delim :: ['e']) =
       .error .didMismatch) ∧
    ((calculateUniqueSuffix ⟨fun s => s, fun _ => ['d'], fun _ => ['u']⟩
        (⟨['d'], ['r', 'c']⟩ : SuffixData) = (['u'] : Str) ∧
      applyCreateModel ⟨fun s => s, fun _ => ['d'], fun _ => ['u']⟩
        ⟨[], ['u', 'c']⟩ ⟨['d'], ['r', 'c']⟩ =
        .ok ⟨[], ['u', 'c'], ['r', 'c'], false, false⟩) ∧
     ∃ r, ResolveDocument ⟨['n', 's'], []⟩ (.ok ⟨100⟩)
       ⟨fun s => s, fun _ => ['d'], fun _ => ['u']⟩
       (fun t => if t = ['e'] then
          some (⟨⟨[], ['u', 'c']⟩, ⟨['d'], ['r', 'c']⟩⟩ : CreateRequest)
        else none) []
       (((['n', 's'] : Str) ++ delim :: ['u']) ++ delim :: ['e']) = .ok r ∧
       r.methodMetadata.lookup publishedKey = some (.bool false)) :=
  ⟨⟨⟨by decide, rfl, by decide, by decide⟩,
    ((c4_initial_state_resolution ⟨['n', 's'], []⟩ ⟨100⟩
      ⟨fun s => s, fun _ => ['d'], fun _ => ['x']⟩
      (fun t => if t = ['e'] then
         some (⟨⟨[], ['u', 'c']⟩, ⟨['d'], ['q']⟩⟩ : CreateRequest)
       else none) [] ['u'] ['e'] ⟨⟨[], ['u', 'c']⟩, ⟨['d'], ['q']⟩⟩
      (by decide) rfl (by decide) rfl).1 (by decide)).1⟩,
   ⟨⟨rfl, rfl⟩,
    (c4_initial_state_resolution ⟨['n', 's'], []⟩ ⟨100⟩
      ⟨fun s => s, fun _ => ['d'], fun _ => ['u']⟩
      (fun t => if t = ['e'] then
         some (⟨⟨[], ['u', 'c']⟩, ⟨['d'], ['r', 'c']⟩⟩ : CreateRequest)
       else none) [] ['u'] ['e'] ⟨⟨[], ['u', 'c']⟩, ⟨['d'], ['r', 'c']⟩⟩
      (by decide) rfl (by decide) rfl).2 rfl
      ⟨[], ['u', 'c'], ['r', 'c'], false, false⟩ rfl⟩⟩

/-- Counterexample for C5 as stated: resolving a long-form identifier
(namespace:suffix:encodedInitialState) succeeds with a document whose id is
the short-form identifier, not the identifier as requested. -/
theorem c5_counterexample :
    resultDocId (ResolveDocument ⟨['n', 's'], []⟩ (.ok ⟨100⟩)
      ⟨fun s => s, fun _ => ['d'], fun _ => ['u']⟩
      (fun t => if t = ['e'] then
         some (⟨⟨[], ['u', 'c']⟩, ⟨['d'], ['r', 'c']⟩⟩ : CreateRequest)
       else none) []
      ((['n', 's'] ++ delim :: ['u']) ++ delim :: ['e'])) =
      some (Value.str ['n', 's', ':', 'u']) ∧
    (['n', 's', ':', 'u'] : Str) ≠
      (['n', 's'] ++ delim :: ['u']) ++ delim :: ['e'] :=
  ⟨rfl, by decide⟩

/-- C5 (amended): every successful `ResolveDocument` result carries method
metadata containing the published flag and the current update and recovery
commitments; when the request used a configured alias namespace, the
canonical identifier is included and the document's id is the identifier as
requested (alias form preserved); for a long-form request the document's id
is the short-form portion of the requested identifier (namespace and suffix,
without the initial-state part). -/
theorem c5_resolution_result_contents (h : DocumentHandler)
    (pc : ProtocolClient) (c : Crypto) (decode : Str → Option CreateRequest)
    (store : List AnchoredOperation) :
    (∀ id r, ResolveDocument h pc c decode store id = .ok r →
      (∃ did, r.document.lookup idKey = some (.str did)) ∧
      (∃ b, r.methodMetadata.lookup publishedKey = some (.bool b)) ∧
      (∃ u, r.methodMetadata.lookup updateCommitmentKey = some (.str u)) ∧
      (∃ w, r.methodMetadata.lookup recoveryCommitmentKey = some (.str w))) ∧
    (∀ a us r, delim ∉ us → us ≠ [] →
      hasPfx (a ++ delim :: us) (h.nspace ++ [delim]) = false →
      h.aliases.find? (fun x => hasPfx (a ++ delim :: us) (x ++ [delim])) =
        some a →
      ResolveDocument h pc c decode store (a ++ delim :: us) = .ok r →
      r.document.lookup idKey = some (.str (a ++ delim :: us)) ∧
      r.methodMetadata.lookup canonicalIdKey =
        some (.str (h.nspace ++ delim :: us))) ∧
    (∀ us s r, delim ∉ us →
      ResolveDocument h pc c decode store
        ((h.nspace ++ delim :: us) ++ delim :: s) = .ok r →
      r.document.lookup idKey = some (.str (h.nspace ++ delim :: us))) := by
  refine ⟨?_, ?_, ?_⟩
  · intro id r hr
    unfold ResolveDocument at hr
    cases hgn : getNamespace h id with
    | error e => simp [hgn] at hr
    | ok ns =>
        simp only [hgn] at hr
        cases pc with
        | error e => simp at hr
        | ok pv =>
            cases hgs : getSuffix ns id with
            | error e => simp [hgs] at hr
            | ok sp =>
                simp only [hgs] at hr
                cases hsp : splitFirst delim sp with
                | none =>
                    simp only [hsp] at hr
                    obtain ⟨rm, _, hid2, hpub, hu, hw, _⟩ :=
                      resolveShortForm_shape _ _ _ _ _ _ _ hr
                    exact ⟨⟨_, hid2⟩, ⟨_, hpub⟩, ⟨_, hu⟩, ⟨_, hw⟩⟩
                | some p =>
                    obtain ⟨us, enc⟩ := p
                    simp only [hsp] at hr
                    cases hsf : resolveShortForm h c store ns us
                        (ns ++ delim :: us) with
                    | ok r2 =>
                        simp only [hsf] at hr
                        injection hr with h3
                        subst h3
                        obtain ⟨rm, _, hid2, hpub, hu, hw, _⟩ :=
                          resolveShortForm_shape _ _ _ _ _ _ _ hsf
                        exact ⟨⟨_, hid2⟩, ⟨_, hpub⟩, ⟨_, hu⟩, ⟨_, hw⟩⟩
                    | error e =>
                        simp only [hsf] at hr
                        by_cases he : e = Err.notFound
                        · rw [if_pos he] at hr
                          obtain ⟨hid2, hpub, hu, hw⟩ :=
                            resolveInit_shape _ _ _ _ _ _ _ _ hr
                          exact ⟨⟨_, hid2⟩, ⟨_, hpub⟩, hu, hw⟩
                        · rw [if_neg he] at hr
                          simp at hr
  · intro a us r hnc hne hno hfind hr
    have hnsa : a ≠ h.nspace := by
      intro heq
      rw [heq, show h.nspace ++ delim :: us = (h.nspace ++ [delim]) ++ us by
        simp, hasPfx_append_self] at hno
      cases hno
    have hgn : getNamespace h (a ++ delim :: us) = .ok a := by
      unfold getNamespace
      rw [hno, hfind]
      simp
    have hgs : getSuffix a (a ++ delim :: us) = .ok us := by
      rw [getSuffix_append, if_neg hne]
    unfold ResolveDocument at hr
    simp only [hgn] at hr
    cases pc with
    | error e => simp at hr
    | ok pv =>
        simp only [hgs, splitFirst_of_not_mem delim us hnc] at hr
        obtain ⟨rm, _, hid2, _, _, _, hcanon⟩ :=
          resolveShortForm_shape _ _ _ _ _ _ _ hr
        exact ⟨hid2, hcanon hnsa⟩
  · intro us s r hnc hr
    rw [show (h.nspace ++ delim :: us) ++ delim :: s =
      h.nspace ++ delim :: (us ++ delim :: s) by simp] at hr
    unfold ResolveDocument at hr
    simp only [getNamespace_append] at hr
    cases pc with
    | error e => simp at hr
    | ok pv =>
        rw [getSuffix_append, if_neg (by simp)] at hr
        simp only [splitFirst_append delim us s hnc] at hr
        cases hsf : resolveShortForm h c store h.nspace us
            (h.nspace ++ delim :: us) with
        | ok r2 =>
            simp only [hsf] at hr
            injection hr with h3
            subst h3
            obtain ⟨rm, _, hid2, _, _, _, _⟩ :=
              resolveShortForm_shape _ _ _ _ _ _ _ hsf
            exact hid2
        | error e =>
            simp only [hsf] at hr
            by_cases he : e = Err.notFound
            · rw [if_pos he] at hr
              exact (resolveInit_shape _ _ _ _ _ _ _ _ hr).1
            · rw [if_neg he] at hr
              simp at hr

/-- Witness for C5 (amended): a concrete canonical short-form resolution, an
alias short-form resolution, and a long-form resolution against a store
holding one anchored Create. -/
theorem c5_witness :
    (ResolveDocument ⟨['n', 's'], [['a', 'l']]⟩ (.ok ⟨100⟩)
       ⟨fun s => s, fun _ => ['d'], fun _ => ['u']⟩ (fun _ => none)
       [⟨OpType.create, ['u'], ⟨[], ['u', 'c']⟩, ⟨['d'], ['r', 'c']⟩, [], 0, 0⟩]
       ['n', 's', ':', 'u'] =
       .ok ⟨[(idKey, Value.str ['n', 's', ':', 'u'])],
            [(publishedKey, Value.bool true),
             (updateCommitmentKey, Value.str ['u', 'c']),
             (recoveryCommitmentKey, Value.str ['r', 'c'])], []⟩ ∧
     ((∃ did, (⟨[(idKey, Value.str ['n', 's', ':', 'u'])],
         [(publishedKey, Value.bool true),
          (updateCommitmentKey, Value.str ['u', 'c']),
          (recoveryCommitmentKey, Value.str ['r', 'c'])], []⟩ :
           ResolutionResult).document.lookup idKey = some (.str did)) ∧
      (∃ b, (⟨[(idKey, Value.str ['n', 's', ':', 'u'])],
         [(publishedKey, Value.bool true),
          (updateCommitmentKey, Value.str ['u', 'c']),
          (recoveryCommitmentKey, Value.str ['r', 'c'])], []⟩ :
           ResolutionResult).methodMetadata.lookup publishedKey =
         some (.bool b)) ∧
      (∃ u, (⟨[(idKey, Value.str ['n', 's', ':', 'u'])],
         [(publishedKey, Value.bool true),
          (updateCommitmentKey, Value.str ['u', 'c']),
          (recoveryCommitmentKey, Value.str ['r', 'c'])], []⟩ :
           ResolutionResult).methodMetadata.lookup updateCommitmentKey =
         some (.str u)) ∧
      (∃ w, (⟨[(idKey, Value.str ['n', 's', ':', 'u'])],
         [(publishedKey, Value.bool true),
          (updateCommitmentKey, Value.str ['u', 'c']),
          (recoveryCommitmentKey, Value.str ['r', 'c'])], []⟩ :
           ResolutionResult).methodMetadata.lookup recoveryCommitmentKey =
         some (.str w)))) ∧
    (ResolveDocument ⟨['n', 's'], [['a', 'l']]⟩ (.ok ⟨100⟩)
       ⟨fun s => s, fun _ => ['d'], fun _ => ['u']⟩ (fun _ => none)
       [⟨OpType.create, ['u'], ⟨[], ['u', 'c']⟩, ⟨['d'], ['r', 'c']⟩, [], 0, 0⟩]
       (['a', 'l'] ++ delim :: ['u']) =
       .ok ⟨[(idKey, Value.str ['a', 'l', ':', 'u'])],
            [(publishedKey, Value.bool true),
             (updateCommitmentKey, Value.str ['u', 'c']),
             (recoveryCommitmentKey, Value.str ['r', 'c']),
             (canonicalIdKey, Value.str ['n', 's', ':', 'u'])], []⟩ ∧
     ((⟨[(idKey, Value.str ['a', 'l', ':', 'u'])],
         [(publishedKey, Value.bool true),
          (updateCommitmentKey, Value.str ['u', 'c']),
          (recoveryCommitmentKey, Value.str ['r', 'c']),
          (canonicalIdKey, Value.str ['n', 's', ':', 'u'])], []⟩ :
           ResolutionResult).document.lookup idKey =
        some (.str (['a', 'l'] ++ delim :: ['u'])) ∧
      (⟨[(idKey, Value.str ['a', 'l', ':', 'u'])],
         [(publishedKey, Value.bool true),
          (updateCommitmentKey, Value.str ['u', 'c']),
          (recoveryCommitmentKey, Value.str ['r', 'c']),
          (canonicalIdKey, Value.str ['n', 's', ':', 'u'])], []⟩ :
           ResolutionResult).methodMetadata.lookup canonicalIdKey =
        some (.str (['n', 's'] ++ delim :: ['u'])))) ∧
    (ResolveDocument ⟨['n', 's'], [['a', 'l']]⟩ (.ok ⟨100⟩)
       ⟨fun s => s, fun _ => ['d'], fun _ => ['u']⟩ (fun _ => none)
       [⟨OpType.create, ['u'], ⟨[], ['u', 'c']⟩, ⟨['d'], ['r', 'c']⟩, [], 0, 0⟩]
       (((['n', 's'] : Str) ++ delim :: ['u']) ++ delim :: ['e']) =
       .ok ⟨[(idKey, Value.str ['n', 's', ':', 'u'])],
            [(publishedKey, Value.bool true),
             (updateCommitmentKey, Value.str ['u', 'c']),
             (recoveryCommitmentKey, Value.str ['r', 'c'])], []⟩ ∧
     (⟨[(idKey, Value.str ['n', 's', ':', 'u'])],
        [(publishedKey, Value.bool true),
         (updateCommitmentKey, Value.str ['u', 'c']),
         (recoveryCommitmentKey, Value.str ['r', 'c'])], []⟩ :
          ResolutionResult).document.lookup idKey =
       some (.str (['n', 's'] ++ delim :: ['u']))) :=
  ⟨⟨rfl, (c5_resolution_result_contents ⟨['n', 's'], [['a', 'l']]⟩ (.ok ⟨100⟩)
      ⟨fun s => s, fun _ => ['d'], fun _ => ['u']⟩ (fun _ => none)
      [⟨OpType.create, ['u'], ⟨[], ['u', 'c']⟩, ⟨['d'], ['r', 'c']⟩, [], 0,
        0⟩]).1 ['n', 's', ':', 'u'] _ rfl⟩,
   ⟨rfl, (c5_resolution_result_contents ⟨['n', 's'], [['a', 'l']]⟩ (.ok ⟨100⟩)
      ⟨fun s => s, fun _ => ['d'], fun _ => ['u']⟩ (fun _ => none)
      [⟨OpType.create, ['u'], ⟨[], ['u', 'c']⟩, ⟨['d'], ['r', 'c']⟩, [], 0,
        0⟩]).2.1 ['a', 'l'] ['u'] _ (by decide) (by decide) rfl rfl rfl⟩,
   ⟨rfl, (c5_resolution_result_contents ⟨['n', 's'], [['a', 'l']]⟩ (.ok ⟨100⟩)
      ⟨fun s => s, fun _ => ['d'], fun _ => ['u']⟩ (fun _ => none)
      [⟨OpType.create, ['u'], ⟨[], ['u', 'c']⟩, ⟨['d'], ['r', 'c']⟩, [], 0,
        0⟩]).2.2 ['u'] ['e'] _ (by decide) rfl⟩⟩
